import Mathlib

/-!
Shallow embedding of the virtualization hooks module (`useVirtualization`,
`useInfiniteVirtualization`, `useGridVirtualization`, `useMasonryVirtualization`)
of the repository, and theorems settling the specification claims about it.

Modelling conventions:
* JavaScript numbers that hold pixel extents / scroll offsets are modelled as
  `Int` (all claim scenarios are integral; negative values must be expressible
  because the code does not clamp them).
* Geometry that feeds `Math.floor` division (container/cell widths, gaps) is
  modelled as `Nat`, where `Nat` division is exactly `floor` of the ratio.
* The measured-heights `Map` is a function `Nat → Option Int`.
* `getItemHeight(item, index)` is modelled as a function of the index only;
  the item argument is determined by the index, so this loses no generality
  for the claims considered.
* React state/memo plumbing is dropped: each memoized value becomes a pure
  function of the quantities it reads.
-/

namespace Virtualization

/-- JS fallback `v || d` applied to a possibly-missing measured height:
`undefined` (here `none`) and `0` are falsy and yield the default `d`;
any other number (negative included) is truthy and is returned as-is. -/
def jsOr (x : Option Int) (d : Int) : Int :=
  match x with
  | none => d
  | some v => if v = 0 then d else v

/-- measureItem (source lines 159-168): records a reported height for an index
in the heights map (last write wins per index). -/
def measureItem (heights : Nat → Option Int) (index : Nat) (h : Int) :
    Nat → Option Int :=
  fun i => if i = index then some h else heights i

/-- The itemHeights memo (source lines 82-95): if a numeric `itemHeight` is
configured, every item gets it; else if `getItemHeight` is supplied, it is
applied per index; else each index resolves to
`heights.get(index) || estimatedItemHeight`. -/
def itemHeights (itemHeight : Option Int) (getItemHeight : Option (Nat → Int))
    (heights : Nat → Option Int) (estimatedItemHeight : Int) (count : Nat) :
    List Int :=
  match itemHeight with
  | some h => List.replicate count h
  | none =>
    match getItemHeight with
    | some f => (List.range count).map f
    | none => (List.range count).map fun i => jsOr (heights i) estimatedItemHeight

/-- The start-finding loop of the visibleRange memo (source lines 107-114):
walking the extents with a running accumulator, return the local index of the
first extent whose trailing edge exceeds `scrollTop` (`none` when the loop
runs off the end without breaking). -/
def findStartCross (scrollTop : Int) : List Int → Int → Option Nat
  | [], _ => none
  | h :: t, acc =>
    if acc + h > scrollTop then some 0
    else (findStartCross scrollTop t (acc + h)).map (· + 1)

/-- The `start` produced by the visibleRange memo: on a break at index `i` the
code sets `start = Math.max(0, i - overscan)` (truncated subtraction on `Nat`);
if the loop never breaks, `start` keeps its initial value `0`. -/
def startIndex (hs : List Int) (scrollTop : Int) (overscan : Nat) : Nat :=
  match findStartCross scrollTop hs 0 with
  | some i => i - overscan
  | none => 0

/-- The end-finding loop of the visibleRange memo (source lines 117-128):
`end` starts at `start`; for each index from `start` on, break when the
accumulator exceeds the limit, else set `end` to the index and add its extent. -/
def findEndGo (limit : Int) : List Int → Int → Nat → Nat → Nat
  | [], _, _, e => e
  | h :: t, acc, i, e =>
    if acc > limit then e else findEndGo limit t (acc + h) (i + 1) i

/-- The visibleRange memo (source lines 103-131). Returns
`(start, Math.min(end + overscan, items.length - 1))`; the second component is
an `Int` because `items.length - 1` is `-1` for an empty list in JS. -/
def visibleRange (hs : List Int) (scrollTop containerHeight : Int)
    (overscan : Nat) (estimatedItemHeight : Int) : Nat × Int :=
  let start := startIndex hs scrollTop overscan
  let e := findEndGo (scrollTop + containerHeight + (overscan : Int) * estimatedItemHeight)
    (hs.drop start) ((hs.take start).sum) start start
  (start, min ((e : Int) + (overscan : Int)) ((hs.length : Int) - 1))

/-- The offsetY memo (source lines 134-138): sum of the extents strictly below
`start` (`itemHeights.slice(0, start).reduce(+, 0)`). -/
def offsetY (hs : List Int) (start : Nat) : Int :=
  (hs.take start).sum

/-- The totalHeight memo (source lines 98-100): sum of all extents. -/
def totalHeight (hs : List Int) : Int :=
  hs.sum

/-- State read by one evaluation of the useInfiniteVirtualization effect
(source lines 223-239). `visibleEnd` is `visibleRange.end`, an `Int` like the
second component of `visibleRange`. -/
structure InfiniteLoadState where
  itemCount : Nat
  visibleEnd : Int
  hasNextPage : Bool
  isFetchingNextPage : Bool
  loadMoreThreshold : Int
deriving DecidableEq

/-- shouldLoadMore (source lines 224-227): `hasNextPage && !isFetchingNextPage
&& items.length - visibleRange.end <= loadMoreThreshold`. -/
def shouldLoadMore (s : InfiniteLoadState) : Bool :=
  s.hasNextPage && !s.isFetchingNextPage &&
    decide ((s.itemCount : Int) - s.visibleEnd ≤ s.loadMoreThreshold)

/-- One evaluation of the effect body (source lines 229-231): `fetchNextPage`
is invoked (once) exactly when `shouldLoadMore` holds and the callback was
supplied; `hasFetchCallback` models whether `fetchNextPage` is non-null. -/
def effectFires (s : InfiniteLoadState) (hasFetchCallback : Bool) : Bool :=
  shouldLoadMore s && hasFetchCallback

/-- Column count of useGridVirtualization.gridDimensions (source line 268):
`columns || Math.floor((containerWidth + gap) / (itemWidth + gap))`. An
explicit `0` is falsy in JS and falls through to the computed value, so it is
treated like an absent `columns`. `Nat` division is floor division; the JS
division is only meaningful when `itemWidth + gap > 0` (claims supply that
hypothesis). -/
def gridCols (columns : Option Nat) (containerWidth itemWidth gap : Nat) : Nat :=
  match columns with
  | some c => if c = 0 then (containerWidth + gap) / (itemWidth + gap) else c
  | none => (containerWidth + gap) / (itemWidth + gap)

/-- Column count of useMasonryVirtualization (source lines 356-358):
`Math.floor((containerWidth + gap) / (columnWidth + gap))`, with no further
adjustment. -/
def masonryColumns (containerWidth columnWidth gap : Nat) : Nat :=
  (containerWidth + gap) / (columnWidth + gap)

/-- A masonry position record `{ x, y, height }` (source line 372). -/
structure MasonryPos where
  x : Int
  y : Int
  height : Int
deriving DecidableEq

/-- `columnHeights.indexOf(Math.min(...columnHeights))` (source line 367):
index of the first occurrence of the minimum accumulated height. The packing
pass only evaluates this on the non-empty `columnHeights` array. -/
def shortestColumnIndex (l : List Int) : Nat :=
  match l.min? with
  | some m => l.indexOf m
  | none => 0

/-- The packing loop body of the positions effect (source lines 365-374):
place each height in sequence order at the foot of the currently shortest
column, then grow that column by `height + gap`. -/
def masonryGo (columnWidth gap : Int) : List Int → List Int → List MasonryPos
  | _, [] => []
  | cols, h :: rest =>
    let c := shortestColumnIndex cols
    let y := cols.getD c 0
    { x := (c : Int) * (columnWidth + gap), y := y, height := h } ::
      masonryGo columnWidth gap (cols.set c (y + h + gap)) rest

/-- The positions effect (source lines 361-377): run the packing loop starting
from `new Array(columns).fill(0)`. `hs` is the list of per-item heights
`getItemHeight(item, index)` in sequence order. -/
def masonryPositions (columnWidth gap : Int) (columns : Nat) (hs : List Int) :
    List MasonryPos :=
  masonryGo columnWidth gap (List.replicate columns 0) hs

/-- The masonry totalHeight memo (source lines 380-383): `0` for an empty
positions list, else `Math.max(...positions.map(pos => pos.y + pos.height))`. -/
def masonryTotalHeight (ps : List MasonryPos) : Int :=
  match (ps.map fun p => p.y + p.height).max? with
  | some m => m
  | none => 0

/-- The visibleItems memo of useMasonryVirtualization (source lines 386-404),
with the hook's scope made explicit. The memo reads `containerHeight`, but
`containerHeight` is not among useMasonryVirtualization's parameters
(source lines 343-350) and is bound nowhere else in the module, so evaluating
the memo throws `ReferenceError: containerHeight is not defined`. The scope's
binding for that identifier is passed as `containerHeightBinding : Option Int`
and the result is an `Except`: an unbound lookup is the thrown error, a bound
one runs the filter (`!item.y && item.y !== 0` excludes exactly the indices
with no position record; otherwise keep the item when
`y + height >= scrollTop - overscan * 100` and
`y <= scrollTop + containerHeight + overscan * 100`). Items are identified by
index; `count` is `items.length`. -/
def masonryVisibleItemsScoped (containerHeightBinding : Option Int)
    (scrollTop : Int) (overscan : Nat) (ps : List MasonryPos) (count : Nat) :
    Except String (List Nat) :=
  match containerHeightBinding with
  | none => .error "ReferenceError: containerHeight is not defined"
  | some containerHeight =>
    .ok ((List.range count).filter fun i =>
      match ps.get? i with
      | none => false
      | some p =>
        decide (p.y + p.height ≥ scrollTop - (overscan : Int) * 100) &&
          decide (p.y ≤ scrollTop + containerHeight + (overscan : Int) * 100))

/-- The visibleItems memo as the source actually has it: the scope carries no
binding for `containerHeight`. -/
def masonryVisibleItems (scrollTop : Int) (overscan : Nat)
    (ps : List MasonryPos) (count : Nat) : Except String (List Nat) :=
  masonryVisibleItemsScoped none scrollTop overscan ps count

/-! Helper lemmas about the resolved extents. -/

theorem itemHeights_uniform_getD (h : Int) (g : Option (Nat → Int))
    (m : Nat → Option Int) (est : Int) (n i : Nat) (hi : i < n) :
    (itemHeights (some h) g m est n).getD i 0 = h := by
  simp [itemHeights, List.getD_eq_getElem?_getD, List.getElem?_replicate, hi]

theorem itemHeights_fun_getD (f : Nat → Int) (m : Nat → Option Int)
    (est : Int) (n i : Nat) (hi : i < n) :
    (itemHeights none (some f) m est n).getD i 0 = f i := by
  simp [itemHeights, List.getD_eq_getElem?_getD, List.getElem?_range hi]

theorem itemHeights_measured_getD (m : Nat → Option Int) (est : Int) (n i : Nat)
    (hi : i < n) :
    (itemHeights none none m est n).getD i 0 = jsOr (m i) est := by
  simp [itemHeights, List.getD_eq_getElem?_getD, List.getElem?_range hi]

/-! Helper lemmas about the start-finding loop. -/

theorem findStartCross_take_sum_le (s : Int) :
    ∀ (t : List Int) (acc : Int) (j : Nat), acc ≤ s →
      findStartCross s t acc = some j → acc + (t.take j).sum ≤ s := by
  intro t
  induction t with
  | nil => intro acc j _ h; simp [findStartCross] at h
  | cons a t ih =>
    intro acc j hacc h
    simp only [findStartCross] at h
    by_cases hb : acc + a > s
    · rw [if_pos hb] at h
      cases h
      simpa using hacc
    · rw [if_neg hb] at h
      obtain ⟨j', hj', rfl⟩ := Option.map_eq_some'.mp h
      have hrec := ih (acc + a) j' (le_of_not_lt hb) hj'
      simpa [add_assoc] using hrec

theorem findStartCross_isSome (s : Int) :
    ∀ (t : List Int) (acc : Int), acc ≤ s → s < acc + t.sum →
      (findStartCross s t acc).isSome := by
  intro t
  induction t with
  | nil =>
    intro acc hacc hlt
    simp only [List.sum_nil, add_zero] at hlt
    exact absurd hlt (not_lt.2 hacc)
  | cons a t ih =>
    intro acc hacc hlt
    simp only [findStartCross]
    by_cases hb : acc + a > s
    · simp [hb]
    · rw [if_neg hb]
      have hlt' : s < (acc + a) + t.sum := by
        rw [List.sum_cons] at hlt; linarith
      have := ih (acc + a) (le_of_not_lt hb) hlt'
      simpa using this

theorem findStartCross_mono (s1 s2 : Int) (h12 : s1 ≤ s2) :
    ∀ (t : List Int) (acc : Int) (j2 : Nat),
      findStartCross s2 t acc = some j2 →
      ∃ j1, j1 ≤ j2 ∧ findStartCross s1 t acc = some j1 := by
  intro t
  induction t with
  | nil => intro acc j2 h; simp [findStartCross] at h
  | cons a t ih =>
    intro acc j2 h
    simp only [findStartCross] at h
    by_cases hb2 : acc + a > s2
    · refine ⟨0, Nat.zero_le _, ?_⟩
      have hb1 : acc + a > s1 := lt_of_le_of_lt h12 hb2
      simp [findStartCross, hb1]
    · rw [if_neg hb2] at h
      obtain ⟨j2', hj2', rfl⟩ := Option.map_eq_some'.mp h
      by_cases hb1 : acc + a > s1
      · exact ⟨0, Nat.zero_le _, by simp [findStartCross, hb1]⟩
      · obtain ⟨j1', hle, h1⟩ := ih (acc + a) j2' hj2'
        exact ⟨j1' + 1, Nat.succ_le_succ hle, by simp [findStartCross, hb1, h1]⟩

/-! Helper lemmas about the shortest-column choice. -/

theorem indexOf_getD_self (m : Int) : ∀ (l : List Int), m ∈ l →
    l.getD (l.indexOf m) 0 = m := by
  intro l
  induction l with
  | nil => intro hm; simp at hm
  | cons a t ih =>
    intro hm
    by_cases hma : m = a
    · subst hma; simp [List.indexOf_cons_self]
    · have ht : m ∈ t := by
        rcases List.mem_cons.mp hm with h | h
        · exact absurd h hma
        · exact h
      rw [List.indexOf_cons_ne t (Ne.symm hma), List.getD_cons_succ]
      exact ih ht

theorem shortestColumnIndex_le (l : List Int) (j : Nat) (hj : j < l.length) :
    l.getD (shortestColumnIndex l) 0 ≤ l.getD j 0 := by
  cases hmin : l.min? with
  | none =>
    rw [List.min?_eq_none_iff] at hmin
    subst hmin
    simp at hj
  | some m =>
    have hmem : m ∈ l := List.min?_mem (fun a b => min_choice a b) hmin
    have hle : ∀ b ∈ l, m ≤ b := fun b hb =>
      ((List.le_min?_iff (fun a b c => le_min_iff) hmin).1 (le_refl m)) b hb
    unfold shortestColumnIndex
    rw [hmin, indexOf_getD_self m l hmem]
    have : l.getD j 0 = l.get ⟨j, hj⟩ := by
      simp [List.getD_eq_getElem?_getD, List.getElem?_eq_getElem hj]
    rw [this]
    exact hle _ (l.get_mem j hj)

set_option maxRecDepth 10000

/-- Claim C1 counterexample: with 1000 uniform items of height 50, container
height 500, overscan 5 and scrollTop 1000, the claimed range {start 15, end 35}
is NOT what the code returns (the end is 40: the end loop already widens by
`overscan * estimatedItemHeight` and then `overscan` is added once more). -/
theorem c1_range_not_15_35 :
    ¬((visibleRange (List.replicate 1000 50) 1000 500 5 50).1 = 15 ∧
      (visibleRange (List.replicate 1000 50) 1000 500 5 50).2 = 35) := by
  decide

/-- Claim C1, amended: for 1000 uniform items of height 50, containerHeight
500, overscan 5 and scrollTop 1000, the visible range has start 15 and end 40
(overscan widens the end twice: once through the
`scrollTop + containerHeight + overscan * estimatedItemHeight` stop limit of
the scan, and once through the final `end + overscan`). -/
theorem c1_range_15_40 :
    visibleRange (List.replicate 1000 50) 1000 500 5 50 = (15, (40 : Int)) := by
  decide

/-- Claim C2 counterexample: with a uniform `itemHeight` of 30 configured and
a measurement of 70 reported for index 0, the resolved extent of index 0 is 30,
not the measured 70 — a reported measurement does NOT take priority over a
configured uniform height. -/
theorem c2_precedence_counterexample :
    (itemHeights (some 30) none (measureItem (fun _ => none) 0 70) 50 1).getD 0 0 = 30 ∧
    (itemHeights (some 30) none (measureItem (fun _ => none) 0 70) 50 1).getD 0 0 ≠ 70 := by
  decide

/-- Claim C2, amended: the extent of an in-range index resolves with the
precedence the code implements: a uniform configured `itemHeight` first, else
the caller-supplied `getItemHeight` function, else the measured-or-default
fallback `heights.get(index) || estimatedItemHeight`; a reported measurement
is consulted only when neither `itemHeight` nor `getItemHeight` is
configured. -/
theorem c2_precedence_amended :
    (∀ (h : Int) (g : Option (Nat → Int)) (m : Nat → Option Int) (est : Int) (n i : Nat),
        i < n → (itemHeights (some h) g m est n).getD i 0 = h) ∧
    (∀ (f : Nat → Int) (m : Nat → Option Int) (est : Int) (n i : Nat),
        i < n → (itemHeights none (some f) m est n).getD i 0 = f i) ∧
    (∀ (m : Nat → Option Int) (est : Int) (n i : Nat),
        i < n → (itemHeights none none m est n).getD i 0 = jsOr (m i) est) :=
  ⟨itemHeights_uniform_getD, itemHeights_fun_getD, itemHeights_measured_getD⟩

/-- Witness for the amended C2 theorem at a concrete input. -/
theorem c2_precedence_witness :
    (itemHeights (some 30) none (measureItem (fun _ => none) 0 70) 50 1).getD 0 0 = 30 :=
  c2_precedence_amended.1 30 none (measureItem (fun _ => none) 0 70) 50 1 0 (by decide)

/-- Claim C3: the visibleItems filter of useMasonryVirtualization is NOT
well-defined — it reads `containerHeight`, which is bound nowhere in the
hook's scope, so every evaluation throws
`ReferenceError: containerHeight is not defined` instead of computing the
interval-intersection filter. Evaluated here at a concrete packed layout
(one item of height 100, one column, scrollTop 0, overscan 5). -/
theorem c3_masonry_visible_reference_error :
    masonryVisibleItems 0 5 (masonryPositions 100 0 1 [100]) 1 =
      Except.error "ReferenceError: containerHeight is not defined" := rfl

/-- Claim C4 counterexample: with containerWidth 10, cell/column width 50 and
gap 0, both calculators compute 0 columns — there is no clamping to a minimum
of 1 when the container is narrower than one cell. -/
theorem c4_columns_counterexample :
    gridCols none 10 50 0 = 0 ∧ masonryColumns 10 50 0 = 0 ∧
      ¬(1 ≤ gridCols none 10 50 0) := by
  decide

/-- Claim C4, amended: when no explicit column count is supplied (and the
divisor is positive), both calculators return exactly
`floor((containerWidth + gap) / (cellWidth + gap))` with no minimum-1 clamp;
in particular the count is 0, not 1, whenever the container is narrower than
one cell. -/
theorem c4_columns_amended (cw iw g : Nat) (_hpos : 0 < iw + g) :
    gridCols none cw iw g = (cw + g) / (iw + g) ∧
    masonryColumns cw iw g = (cw + g) / (iw + g) ∧
    (cw + g < iw + g → gridCols none cw iw g = 0 ∧ masonryColumns cw iw g = 0) :=
  ⟨rfl, rfl, fun hlt => ⟨Nat.div_eq_of_lt hlt, Nat.div_eq_of_lt hlt⟩⟩

/-- Witness for the amended C4 theorem at a concrete input. -/
theorem c4_columns_witness :
    gridCols none 10 50 0 = 0 ∧ masonryColumns 10 50 0 = 0 :=
  (c4_columns_amended 10 50 0 (by decide)).2.2 (by decide)

/-- Claim C5 counterexample: extents [50, 50], overscan 0, scroll offsets
60 ≤ 100 (100 is exactly the total extent): the start computed for 60 is 1 but
the start computed for 100 is 0 — at or beyond the total extent the start loop
never breaks and start falls back to 0, so monotonicity fails there. -/
theorem c5_start_monotone_counterexample :
    (60 : Int) ≤ 100 ∧ startIndex [50, 50] 60 0 = 1 ∧
      startIndex [50, 50] 100 0 = 0 ∧
      ¬(startIndex [50, 50] 60 0 ≤ startIndex [50, 50] 100 0) := by
  decide

/-- Claim C5, amended: for a fixed sequence of extents and a fixed overscan,
the start index is monotone in the scroll offset for offsets within
[0, totalExtent): if 0 ≤ s1 ≤ s2 < totalExtent then start(s1) ≤ start(s2).
(At or beyond the total extent the accumulation loop runs off the end and
start resets to 0.) -/
theorem c5_start_monotone_amended (hs : List Int) (s1 s2 : Int) (o : Nat)
    (h1 : 0 ≤ s1) (h12 : s1 ≤ s2) (h2 : s2 < totalHeight hs) :
    startIndex hs s1 o ≤ startIndex hs s2 o := by
  have h0 : (0 : Int) ≤ s2 := le_trans h1 h12
  have hsome : (findStartCross s2 hs 0).isSome :=
    findStartCross_isSome s2 hs 0 h0 (by simpa [totalHeight] using h2)
  cases hj2 : findStartCross s2 hs 0 with
  | none => rw [hj2] at hsome; simp at hsome
  | some j2 =>
    obtain ⟨j1, hle, hj1⟩ := findStartCross_mono s1 s2 h12 hs 0 j2 hj2
    unfold startIndex
    rw [hj1, hj2]
    exact Nat.sub_le_sub_right hle o

/-- Witness for the amended C5 theorem at a concrete input. -/
theorem c5_start_monotone_witness :
    startIndex [50, 50] 10 0 ≤ startIndex [50, 50] 60 0 :=
  c5_start_monotone_amended [50, 50] 10 60 0 (by decide) (by decide) (by decide)

/-- Claim C6: one evaluation of the infinite-load effect invokes the supplied
fetch callback if and only if `itemCount - end ≤ loadMoreThreshold`,
`hasNextPage` is true and `isFetchingNextPage` is false; whenever
`isFetchingNextPage` is true it never invokes the callback regardless of the
visible window; and concretely, the state (itemCount 100, end 96, threshold 5,
hasNextPage true, isFetchingNextPage false) fires while the same window with
isFetchingNextPage true does not. Each effect evaluation calls the callback at
most once by construction. -/
theorem c6_infinite_load_gate :
    (∀ s : InfiniteLoadState,
        effectFires s true = true ↔
          ((s.itemCount : Int) - s.visibleEnd ≤ s.loadMoreThreshold ∧
            s.hasNextPage = true ∧ s.isFetchingNextPage = false)) ∧
    (∀ (s : InfiniteLoadState) (cb : Bool),
        s.isFetchingNextPage = true → effectFires s cb = false) ∧
    effectFires ⟨100, 96, true, false, 5⟩ true = true ∧
    effectFires ⟨100, 96, true, true, 5⟩ true = false := by
  refine ⟨?_, ?_, by decide, by decide⟩
  · intro s
    simp only [effectFires, shouldLoadMore, Bool.and_eq_true, Bool.not_eq_true',
      decide_eq_true_eq, and_true]
    tauto
  · intro s cb h
    simp [effectFires, shouldLoadMore, h]

/-- Witness for the C6 theorem: its never-fire-in-flight part applied to the
concrete in-flight state. -/
theorem c6_infinite_load_witness :
    effectFires ⟨100, 96, true, true, 5⟩ true = false :=
  c6_infinite_load_gate.2.1 ⟨100, 96, true, true, 5⟩ true rfl

/-- Claim C7: masonry packing is greedy and deterministic. For heights
[100, 150, 80, 120, 90], 2 columns, column width 100 and gap 10, the placed
positions are x 0/110/0/110/0 (so column 0 receives items 0, 2, 4 and column 1
receives items 1, 3) with y 0/0/110/160/200, and the computed totalHeight is
290; each placement grows the chosen column's accumulator by itemHeight + gap.
Moreover the chosen column always carries the minimum accumulated height (the
`indexOf` of the minimum, so ties resolve to the lowest column index). -/
theorem c7_masonry_packing :
    ((masonryPositions 100 10 2 [100, 150, 80, 120, 90]).map fun p => (p.x, p.y, p.height)) =
      [(0, 0, 100), (110, 0, 150), (0, 110, 80), (110, 160, 120), (0, 200, 90)] ∧
    masonryTotalHeight (masonryPositions 100 10 2 [100, 150, 80, 120, 90]) = 290 ∧
    (∀ (cols : List Int) (j : Nat), j < cols.length →
        cols.getD (shortestColumnIndex cols) 0 ≤ cols.getD j 0) :=
  ⟨by decide, by decide, shortestColumnIndex_le⟩

/-- Witness for the C7 theorem: minimality of the chosen column at a concrete
column-height list. -/
theorem c7_masonry_packing_witness :
    ([(3 : Int), 5]).getD (shortestColumnIndex [3, 5]) 0 ≤ ([(3 : Int), 5]).getD 1 0 :=
  c7_masonry_packing.2.2 [3, 5] 1 (by decide)

/-- Claim C8: for every sequence of non-negative extents with at least one
item and every scroll offset in [0, totalExtent], the unwidened start index
(overscan 0) satisfies offsetOf(start) ≤ scrollOffset, where offsetOf is the
prefix sum of extents below the index. -/
theorem c8_start_offset_le (hs : List Int) (s : Int)
    (_hlen : 1 ≤ hs.length) (_hnn : ∀ h ∈ hs, 0 ≤ h)
    (h0 : 0 ≤ s) (_hub : s ≤ totalHeight hs) :
    offsetY hs (startIndex hs s 0) ≤ s := by
  unfold startIndex
  cases hfc : findStartCross s hs 0 with
  | none => simpa [offsetY] using h0
  | some j =>
    have := findStartCross_take_sum_le s hs 0 j h0 hfc
    simpa [offsetY] using this

/-- Witness for the C8 theorem at a concrete input. -/
theorem c8_start_offset_le_witness :
    offsetY [50, 50] (startIndex [50, 50] 60 0) ≤ 60 :=
  c8_start_offset_le [50, 50] 60 (by decide) (by decide) (by decide) (by decide)

/-- Claim C9 counterexample: with a caller-supplied sizing function returning
-10, the extent actually used by the calculator for index 0 is -10 — negative
extents are not clamped to 0 nor replaced by the estimate. -/
theorem c9_negative_extent_counterexample :
    (itemHeights none (some (fun _ => (-10 : Int))) (fun _ => none) 50 1).getD 0 0 = -10 ∧
    ¬(0 ≤ (itemHeights none (some (fun _ => (-10 : Int))) (fun _ => none) 50 1).getD 0 0) := by
  decide

/-- Claim C9, amended: a missing extent (no measurement reported, no sizing
configured) is replaced by the estimated default and never propagated as a
failure, but extents are not clamped: any nonzero measured value — negative
included — is used as-is. -/
theorem c9_extent_fallback_amended :
    (∀ (m : Nat → Option Int) (est : Int) (n i : Nat), i < n → m i = none →
        (itemHeights none none m est n).getD i 0 = est) ∧
    (∀ (m : Nat → Option Int) (v est : Int) (n i : Nat), i < n → m i = some v → v ≠ 0 →
        (itemHeights none none m est n).getD i 0 = v) := by
  constructor
  · intro m est n i hi hm
    rw [itemHeights_measured_getD m est n i hi, hm]
    rfl
  · intro m v est n i hi hm hv
    rw [itemHeights_measured_getD m est n i hi, hm]
    simp [jsOr, hv]

/-- Witness for the amended C9 theorem at a concrete input. -/
theorem c9_extent_fallback_witness :
    (itemHeights none none (fun _ => none) 50 1).getD 0 0 = 50 :=
  c9_extent_fallback_amended.1 (fun _ => none) 50 1 0 (by decide) rfl

/-- Claim C10: when neither a uniform itemHeight nor a getItemHeight function
is configured, a measured height of exactly 0 reported via measureItem is
falsy under the `||` fallback and is treated as if no measurement existed: the
extent for that index resolves to estimatedItemHeight, not 0. -/
theorem c10_zero_measurement_estimate (m : Nat → Option Int) (est : Int)
    (n i : Nat) (hi : i < n) :
    (itemHeights none none (measureItem m i 0) est n).getD i 0 = est := by
  rw [itemHeights_measured_getD _ est n i hi]
  simp [measureItem, jsOr]

/-- Witness for the C10 theorem at a concrete input. -/
theorem c10_zero_measurement_witness :
    (itemHeights none none (measureItem (fun _ => none) 0 0) 50 1).getD 0 0 = 50 :=
  c10_zero_measurement_estimate (fun _ => none) 50 1 0 (by decide)

end Virtualization
